import Mathlib

/-!
Verification of the reqstly backend's multi-provider authentication and
session lifecycle engine, shallowly embedded from the Rust sources under
`src/backend/src`.  Machine integers are modelled as `Nat`/`Int` with
explicit reductions modulo `2 ^ 32` where the source relies on 32-bit
arithmetic; database-fallible operations return `Except AppError`.
-/

namespace Reqstly

/-! ### 32-bit word helpers (for the SHA-256 digest used by `hash_token`,
`src/backend/src/models/session.rs` lines 184-189). -/

/-- Reduce modulo `2 ^ 32`, the wrap-around of `u32` arithmetic. -/
def mod32 (x : Nat) : Nat := x % 4294967296

/-- Right rotation of a 32-bit word by `n` bits (for `n ≤ 32`). -/
def rotr32 (x n : Nat) : Nat := mod32 (x / 2 ^ n + x % 2 ^ n * 2 ^ (32 - n))

/-- Bitwise complement of a 32-bit word. -/
def not32 (x : Nat) : Nat := 4294967295 - mod32 x

/-- SHA-256 `Ch` function. -/
def ch32 (e f g : Nat) : Nat := (e &&& f) ^^^ (not32 e &&& g)

/-- SHA-256 `Maj` function. -/
def maj32 (a b c : Nat) : Nat := (a &&& b) ^^^ (a &&& c) ^^^ (b &&& c)

/-- SHA-256 big sigma 0. -/
def bigSigma0 (x : Nat) : Nat := rotr32 x 2 ^^^ rotr32 x 13 ^^^ rotr32 x 22

/-- SHA-256 big sigma 1. -/
def bigSigma1 (x : Nat) : Nat := rotr32 x 6 ^^^ rotr32 x 11 ^^^ rotr32 x 25

/-- SHA-256 small sigma 0. -/
def smallSigma0 (x : Nat) : Nat := rotr32 x 7 ^^^ rotr32 x 18 ^^^ x / 2 ^ 3

/-- SHA-256 small sigma 1. -/
def smallSigma1 (x : Nat) : Nat := rotr32 x 17 ^^^ rotr32 x 19 ^^^ x / 2 ^ 10

/-- The 64 SHA-256 round constants (FIPS 180-4, written in decimal). -/
def shaK : List Nat :=
  [1116352408, 1899447441, 3049323471, 3921009573, 961987163, 1508970993,
   2453635748, 2870763221, 3624381080, 310598401, 607225278, 1426881987,
   1925078388, 2162078206, 2614888103, 3248222580, 3835390401, 4022224774,
   264347078, 604807628, 770255983, 1249150122, 1555081692, 1996064986,
   2554220882, 2821834349, 2952996808, 3210313671, 3336571891, 3584528711,
   113926993, 338241895, 666307205, 773529912, 1294757372, 1396182291,
   1695183700, 1986661051, 2177026350, 2456956037, 2730485921, 2820302411,
   3259730800, 3345764771, 3516065817, 3600352804, 4094571909, 275423344,
   430227734, 506948616, 659060556, 883997877, 958139571, 1322822218,
   1537002063, 1747873779, 1955562222, 2024104815, 2227730452, 2361852424,
   2428436474, 2756734187, 3204031479, 3329325298]

/-- The SHA-256 initial hash state (FIPS 180-4, written in decimal). -/
def shaH0 : List Nat :=
  [1779033703, 3144134277, 1013904242, 2773480762, 1359893119, 2600822924,
   528734635, 1541459225]

/-- Big-endian 8-byte encoding of a length value. -/
def be8 (n : Nat) : List Nat :=
  [n / 2 ^ 56 % 256, n / 2 ^ 48 % 256, n / 2 ^ 40 % 256, n / 2 ^ 32 % 256,
   n / 2 ^ 24 % 256, n / 2 ^ 16 % 256, n / 2 ^ 8 % 256, n % 256]

/-- Big-endian 4-byte encoding of a 32-bit word. -/
def be4 (w : Nat) : List Nat :=
  [w / 2 ^ 24 % 256, w / 2 ^ 16 % 256, w / 2 ^ 8 % 256, w % 256]

/-- Combine a big-endian list of bytes into one number. -/
def beWord (l : List Nat) : Nat := l.foldl (fun acc b => acc * 256 + b) 0

/-- SHA-256 message padding: append `0x80`, zeros, and the 64-bit bit length
so the total byte length is a multiple of 64. -/
def shaPad (msg : List Nat) : List Nat :=
  msg ++ [128] ++ List.replicate ((119 - msg.length % 64) % 64) 0
      ++ be8 (8 * msg.length)

/-- One extension step of the SHA-256 message schedule. -/
def scheduleStep (w : List Nat) : List Nat :=
  let n := w.length
  w ++ [mod32 (w.getD (n - 16) 0 + smallSigma0 (w.getD (n - 15) 0)
        + w.getD (n - 7) 0 + smallSigma1 (w.getD (n - 2) 0))]

/-- The full 64-word SHA-256 message schedule from 16 initial words. -/
def schedule (w16 : List Nat) : List Nat :=
  (List.range 48).foldl (fun acc _ => scheduleStep acc) w16

/-- One SHA-256 compression round on the 8-word working state. -/
def compressRound (k w : Nat) (st : List Nat) : List Nat :=
  match st with
  | [a, b, c, d, e, f, g, h] =>
    let t1 := mod32 (h + bigSigma1 e + ch32 e f g + k + w)
    let t2 := mod32 (bigSigma0 a + maj32 a b c)
    [mod32 (t1 + t2), a, b, c, mod32 (d + t1), e, f, g]
  | other => other

/-- Compress one 64-byte block into the running hash state. -/
def compressBlock (h : List Nat) (block : List Nat) : List Nat :=
  let ws := schedule ((List.range 16).map (fun i => beWord ((block.drop (4 * i)).take 4)))
  let st := (List.range 64).foldl
    (fun st i => compressRound (shaK.getD i 0) (ws.getD i 0) st) h
  (List.zip h st).map (fun p => mod32 (p.1 + p.2))

/-- SHA-256 of a byte list, as the 32-byte digest. -/
def sha256 (msg : List Nat) : List Nat :=
  let padded := shaPad msg
  let blocks := (List.range (padded.length / 64)).map
    (fun i => (padded.drop (64 * i)).take 64)
  ((blocks.foldl compressBlock shaH0).map be4).flatten

/-! ### URL-safe base64 without padding
(`base64_url_encode`, `src/backend/src/models/session.rs` lines 192-197). -/

/-- The URL-safe base64 alphabet. -/
def b64Alphabet : List Char :=
  "ABCDEFGHIJKLMNOPQRSTUVWXYZabcdefghijklmnopqrstuvwxyz0123456789-_".data

/-- The base64url character for a 6-bit value. -/
def b64Char (n : Nat) : Char := b64Alphabet.getD n 'A'

/-- Characters of the URL-safe, unpadded base64 encoding of a byte list. -/
def base64UrlChars : List Nat → List Char
  | [] => []
  | [a] => [b64Char (a / 4 % 64), b64Char (a % 4 * 16)]
  | [a, b] => [b64Char (a / 4 % 64), b64Char (a % 4 * 16 + b / 16),
               b64Char (b % 16 * 4)]
  | a :: b :: c :: rest =>
    b64Char (a / 4 % 64) :: b64Char (a % 4 * 16 + b / 16)
      :: b64Char (b % 16 * 4 + c / 64) :: b64Char (c % 64)
      :: base64UrlChars rest

/-- `base64_url_encode`: URL-safe base64 without padding. -/
def base64UrlEncode (data : List Nat) : String := String.mk (base64UrlChars data)

/-! ### UTF-8 bytes of a string (Rust hashes `token.as_bytes()`). -/

/-- UTF-8 byte sequence of a single code point. -/
def utf8Bytes (c : Nat) : List Nat :=
  if c < 0x80 then [c]
  else if c < 0x800 then [0xc0 + c / 64, 0x80 + c % 64]
  else if c < 0x10000 then
    [0xe0 + c / 4096, 0x80 + c / 64 % 64, 0x80 + c % 64]
  else
    [0xf0 + c / 262144, 0x80 + c / 4096 % 64, 0x80 + c / 64 % 64, 0x80 + c % 64]

/-- UTF-8 bytes of a string. -/
def strBytes (s : String) : List Nat := (s.data.map (fun ch => utf8Bytes ch.toNat)).flatten

/-! ### Token generation and hashing
(`src/backend/src/models/session.rs` lines 171-189). -/

/-- `TOKEN_SIZE`: 32 bytes = 256 bits. -/
def TOKEN_SIZE : Nat := 32

/-- The 32 random bytes drawn by `generate_session_token`; the random number
generator is modelled as a function giving the byte at each index. -/
def tokenBytes (rng : Nat → Nat) : List Nat :=
  (List.range TOKEN_SIZE).map (fun i => rng i % 256)

/-- `generate_session_token`: base64url of 32 random bytes. -/
def generateSessionToken (rng : Nat → Nat) : String :=
  base64UrlEncode (tokenBytes rng)

/-- `hash_token`: base64url of the SHA-256 digest of the token's bytes. -/
def hashToken (token : String) : String :=
  base64UrlEncode (sha256 (strBytes token))

/-! ### Providers and errors
(`src/backend/src/models/external_identities.rs` lines 11-47,
`src/backend/src/error.rs`). -/

/-- `AuthProvider` (`external_identities.rs` lines 16-20). -/
inductive AuthProvider where
  | azureAd
  | passkey
  | password
deriving DecidableEq, Repr

/-- The `Display` rendering of a provider (`external_identities.rs` lines 39-47). -/
def authProviderToString : AuthProvider → String
  | .azureAd => "azure_ad"
  | .passkey => "passkey"
  | .password => "password"

/-- ASCII lowercasing, modelling Rust's `str::to_lowercase` (which the source
only ever applies to provider names; the two agree on ASCII input). -/
def asciiLowercase (s : String) : String := s.map Char.toLower

/-- `From<String> for AuthProvider` (`external_identities.rs` lines 22-31).
The wildcard arm of the source diverges by a panic; that arm is modelled as
`none`, every other outcome as `some`. -/
def authProviderFromString (value : String) : Option AuthProvider :=
  match asciiLowercase value with
  | "azure_ad" => some .azureAd
  | "passkey" => some .passkey
  | "password" => some .password
  | _ => none

/-- Database-level errors surfaced through `sqlx::Error` (`error.rs` maps
unique-violation code 23505 to a conflict response, and `fetch_one` on zero
rows to `RowNotFound`). -/
inductive DbErr where
  | uniqueViolation
  | rowNotFound
deriving DecidableEq, Repr

/-- `AppError` (`error.rs` lines 9-25), together with the `Forbidden` variant
that `auth_context.rs` and `handlers/requests.rs` construct. -/
inductive AppError where
  | database (e : DbErr)
  | notFound (msg : String)
  | badRequest (msg : String)
  | unauthorized (msg : String)
  | internal (msg : String)
  | forbidden (msg : String)
deriving DecidableEq, Repr

/-- Whether an error is of the `Unauthorized` (HTTP 401, unauthenticated) kind. -/
def AppError.isUnauthorized : AppError → Bool
  | .unauthorized _ => true
  | _ => false

/-! ### Persistent data model
(`src/backend/src/models/user.rs`, `external_identities.rs`, `session.rs`,
`passkey.rs`).  `Uuid` is modelled as `Nat`, timestamps as `Int` seconds. -/

/-- `User` (`user.rs` lines 8-16). -/
structure User where
  id : Nat
  email : String
  name : String
  azureAdSubject : Option String
  createdAt : Int
  updatedAt : Int
deriving DecidableEq, Repr

/-- `ExternalIdentity` (`external_identities.rs` lines 49-57). -/
structure ExternalIdentity where
  id : Nat
  userId : Nat
  provider : AuthProvider
  subject : String
  email : Option String
  createdAt : Int
deriving DecidableEq, Repr

/-- `Session` (`session.rs` lines 11-20). -/
structure Session where
  id : Nat
  userId : Nat
  externalIdentityId : Option Nat
  provider : AuthProvider
  tokenHash : String
  expiresAt : Int
  createdAt : Int
deriving DecidableEq, Repr

/-- `PasskeyCredential` (`passkey.rs` lines 8-17); `counter` is the stored
`i32` column. -/
structure PasskeyCredential where
  id : Nat
  userId : Nat
  credentialId : String
  publicKey : String
  counter : Int
  transports : Option (List String)
  createdAt : Int
deriving DecidableEq, Repr

/-- The relational store.  Row insertion order models physical order; `nextId`
models the source of fresh `Uuid` values. -/
structure Db where
  users : List User
  externalIdentities : List ExternalIdentity
  sessions : List Session
  passkeys : List PasskeyCredential
  nextId : Nat
deriving DecidableEq, Repr

/-- `DEFAULT_SESSION_DURATION_HOURS` (`session.rs` line 23), in seconds. -/
def sessionDurationSeconds : Int := 24 * 3600

/-- The `u32 as i32` cast in `update_counter` (`passkey.rs` line 107). -/
def u32AsI32 (n : Nat) : Int :=
  if n % 4294967296 < 2147483648 then (n % 4294967296 : Int)
  else (n % 4294967296 : Int) - 4294967296

/-! ### User operations (`src/backend/src/models/user.rs`). -/

/-- `User::find_by_id` (`user.rs` lines 29-45). -/
def User.findById (db : Db) (id : Nat) : Option User :=
  db.users.find? (fun u => decide (u.id = id))

/-- `User::find_by_email` (`user.rs` lines 48-64). -/
def User.findByEmail (db : Db) (email : String) : Option User :=
  db.users.find? (fun u => decide (u.email = email))

/-- `User::create` (`user.rs` lines 86-107); the `users.email` unique
constraint makes the insert fail with a unique violation when the email is
taken. -/
def User.create (db : Db) (email name : String) (azureAdSubject : Option String)
    (now : Int) : Except AppError User × Db :=
  if db.users.any (fun u => decide (u.email = email)) then
    (.error (.database .uniqueViolation), db)
  else
    let u : User := ⟨db.nextId, email, name, azureAdSubject, now, now⟩
    (.ok u, { db with users := db.users ++ [u], nextId := db.nextId + 1 })

/-! ### External identity operations
(`src/backend/src/models/external_identities.rs`). -/

/-- `ExternalIdentity::find_by_id` (`external_identities.rs` lines 84-100). -/
def ExternalIdentity.findById (db : Db) (id : Nat) : Option ExternalIdentity :=
  db.externalIdentities.find? (fun i => decide (i.id = id))

/-- `ExternalIdentity::find_by_provider_subject` (`external_identities.rs`
lines 102-121). -/
def ExternalIdentity.findByProviderSubject (db : Db) (provider : AuthProvider)
    (subject : String) : Option ExternalIdentity :=
  db.externalIdentities.find?
    (fun i => decide (i.provider = provider ∧ i.subject = subject))

/-- `ExternalIdentity::create` (`external_identities.rs` lines 60-82); the
`(provider, subject)` unique constraint makes a duplicate insert fail. -/
def ExternalIdentity.create (db : Db) (userId : Nat) (provider : AuthProvider)
    (subject : String) (email : Option String) (now : Int) :
    Except AppError ExternalIdentity × Db :=
  if db.externalIdentities.any
      (fun i => decide (i.provider = provider ∧ i.subject = subject)) then
    (.error (.database .uniqueViolation), db)
  else
    let ei : ExternalIdentity := ⟨db.nextId, userId, provider, subject, email, now⟩
    (.ok ei,
     { db with externalIdentities := db.externalIdentities ++ [ei],
               nextId := db.nextId + 1 })

/-- `resolve_user_from_external_identity` (`external_identities.rs`
lines 123-168). -/
def resolveUserFromExternalIdentity (db : Db) (provider : AuthProvider)
    (subject : String) (email : Option String) (name : Option String)
    (now : Int) : Except AppError User × Db :=
  match ExternalIdentity.findByProviderSubject db provider subject with
  | some identity =>
    match User.findById db identity.userId with
    | some u => (.ok u, db)
    | none =>
      (.error (.internal "External Identity found but cascaded User not found"), db)
  | none =>
    match email with
    | some e =>
      match User.findByEmail db e with
      | some u =>
        match ExternalIdentity.create db u.id provider subject email now with
        | (.ok _, db2) => (.ok u, db2)
        | (.error err, db2) => (.error err, db2)
      | none =>
        match User.create db e (name.getD e) none now with
        | (.ok u, db1) =>
          match ExternalIdentity.create db1 u.id provider subject email now with
          | (.ok _, db2) => (.ok u, db2)
          | (.error err, db2) => (.error err, db2)
        | (.error err, db1) => (.error err, db1)
    | none => (.error (.unauthorized "Azure identity missing email"), db)

/-! ### Session operations (`src/backend/src/models/session.rs`). -/

/-- `Session::create` (`session.rs` lines 28-66): draw a random 256-bit token,
store only its SHA-256 digest, expire 24 hours from now, return the raw token
alongside the stored row. -/
def Session.create (db : Db) (userId : Nat) (identity : Option ExternalIdentity)
    (provider : AuthProvider) (now : Int) (rng : Nat → Nat) :
    (Session × String) × Db :=
  let token := generateSessionToken rng
  let tokenHash := hashToken token
  let expiresAt := now + sessionDurationSeconds
  let s : Session :=
    ⟨db.nextId, userId, identity.map (fun i => i.id), provider, tokenHash,
     expiresAt, now⟩
  ((s, token), { db with sessions := db.sessions ++ [s], nextId := db.nextId + 1 })

/-- `Session::find_valid` (`session.rs` lines 70-102): hash the presented
token, select a session matching the digest with `expires_at > NOW()`, and
resolve its optional external identity. -/
def Session.findValid (db : Db) (token : String) (now : Int) :
    Option (Session × Option ExternalIdentity) :=
  match db.sessions.find?
      (fun s => decide (s.tokenHash = hashToken token ∧ now < s.expiresAt)) with
  | none => none
  | some s =>
    some (s, match s.externalIdentityId with
             | some extId => ExternalIdentity.findById db extId
             | none => none)

/-- `Session::is_expired` (`session.rs` lines 145-147). -/
def Session.isExpired (s : Session) (now : Int) : Bool := s.expiresAt < now

/-- The session table after the `UPDATE ... SET expires_at = $2 WHERE id = $1`
of `Session::extend`: every row with the given id gets the new expiry. -/
def sessionsExtended (db : Db) (sid : Nat) (t : Int) : List Session :=
  db.sessions.map (fun r => if r.id = sid then { r with expiresAt := t } else r)

/-- `Session::extend` (`session.rs` lines 150-168): update the row's expiry to
now + 24h and return the updated row (`RETURNING`); `fetch_one` on zero
updated rows fails with `RowNotFound`. -/
def Session.extend (s : Session) (db : Db) (now : Int) :
    Except AppError Session × Db :=
  match (sessionsExtended db s.id (now + sessionDurationSeconds)).find?
      (fun r => decide (r.id = s.id)) with
  | some r =>
    (.ok r, { db with sessions := sessionsExtended db s.id (now + sessionDurationSeconds) })
  | none =>
    (.error (.database .rowNotFound),
     { db with sessions := sessionsExtended db s.id (now + sessionDurationSeconds) })

/-! ### Passkey credential operations (`src/backend/src/models/passkey.rs`). -/

/-- `PasskeyCredential::find_by_credential_id` (`passkey.rs` lines 55-71). -/
def PasskeyCredential.findByCredentialId (db : Db) (credentialId : String) :
    Option PasskeyCredential :=
  db.passkeys.find? (fun c => decide (c.credentialId = credentialId))

/-- `PasskeyCredential::update_counter` (`passkey.rs` lines 95-114): set the
counter of every row with the given credential id to the given value (cast
`u32 as i32`); the statement succeeds whether or not any row matches. -/
def PasskeyCredential.updateCounter (db : Db) (credentialId : String)
    (counter : Nat) : Except AppError Unit × Db :=
  (.ok (),
   { db with passkeys := (db.passkeys.map
       (fun c => if c.credentialId = credentialId
                 then { c with counter := u32AsI32 counter } else c)) })

/-! ### Ceremony store (`src/backend/src/auth/passkey.rs` lines 22-59).
The Redis store is a key-value map; TTL bookkeeping is not modelled because
the claims under study concern consumption, not expiry.  The serialized
`(PasskeyRegistration, Uuid)` value is kept as an opaque string. -/

/-- The Redis key space. -/
abbrev RedisState := List (String × String)

/-- Redis `GET`. -/
def redisGet (st : RedisState) (key : String) : Option String :=
  (st.find? (fun p => decide (p.1 = key))).map (fun p => p.2)

/-- Redis `DEL`. -/
def redisDel (st : RedisState) (key : String) : RedisState :=
  st.filter (fun p => decide (p.1 ≠ key))

/-- Redis `SET ... EX` as used by `store_session_passkey_reg_uid`: replaces
any previous value under the key. -/
def redisSetEx (st : RedisState) (key value : String) : RedisState :=
  (key, value) :: redisDel st key

/-- The key format of `store_session_passkey_reg_uid` /
`consume_session_passkey_reg_uid`. -/
def passkeyRegKey (token : String) : String := "passkey:register:" ++ token

/-- First half of `consume_session_passkey_reg_uid` (`passkey.rs` line 42):
one `GET` round trip. -/
def consumeGet (st : RedisState) (token : String) : Option String :=
  redisGet st (passkeyRegKey token)

/-- Second half of `consume_session_passkey_reg_uid` (`passkey.rs`
lines 44-58): on a hit, a separate `DEL` round trip and the value is
returned; on a miss, an `Unauthorized` failure. -/
def consumeFinish (st : RedisState) (token : String) (got : Option String) :
    Except AppError String × RedisState :=
  match got with
  | some n => (.ok n, redisDel st (passkeyRegKey token))
  | none => (.error (.unauthorized "Invalid or expired state"), st)

/-- `consume_session_passkey_reg_uid` run in isolation: the `GET` and the
`DEL` execute back to back on the same store. -/
def consumeSessionPasskeyRegUid (st : RedisState) (token : String) :
    Except AppError String × RedisState :=
  consumeFinish st token (consumeGet st token)

/-- Two callers racing `consume_session_passkey_reg_uid` on the same key,
interleaved as GET(A), GET(B), DEL(A), DEL(B).  Each caller performs exactly
the two round trips of the source, each against the store as it stands when
the command arrives; this schedule is possible because the source issues
`GET` and `DEL` as two separate Redis commands. -/
def racedConsume (st : RedisState) (token : String) :
    Except AppError String × Except AppError String × RedisState :=
  let aGot := consumeGet st token
  let bGot := consumeGet st token
  let resA := consumeFinish st token aGot
  let resB := consumeFinish resA.2 token bGot
  (resA.1, resB.1, resB.2)

/-! ### Auth context guard (`src/backend/src/auth/auth_context.rs`,
`src/backend/src/auth/session_token.rs`). -/

/-- `AuthContext` (`auth_context.rs` lines 13-18). -/
structure AuthContext where
  session : Session
  user : User
  identity : Option ExternalIdentity
deriving DecidableEq, Repr

/-- `AuthContext::provider` (`auth_context.rs` lines 21-23). -/
def AuthContext.provider (ctx : AuthContext) : AuthProvider :=
  ctx.session.provider

/-- `AuthContext::require_provider` (`auth_context.rs` lines 29-41). -/
def AuthContext.requireProvider (ctx : AuthContext) (provider : AuthProvider) :
    Except AppError Unit :=
  if ctx.session.provider = provider then .ok ()
  else .error (.forbidden ("Invalid auth provider: " ++ authProviderToString provider))

/-- `SessionToken::from_request_parts` (`session_token.rs` lines 34-53): read
the `session` cookie; its absence is an `Unauthorized` failure. -/
def sessionTokenFromRequestParts (cookie : Option String) :
    Except AppError String :=
  match cookie with
  | some value => .ok value
  | none => .error (.unauthorized "Missing session cookie")

/-- `AuthContext::from_request_parts` (`auth_context.rs` lines 48-72). -/
def AuthContext.fromRequestParts (db : Db) (cookie : Option String)
    (now : Int) : Except AppError AuthContext :=
  match sessionTokenFromRequestParts cookie with
  | .error e => .error e
  | .ok token =>
    match Session.findValid db token now with
    | none => .error (.unauthorized "Invalid or expired session")
    | some (session, identity) =>
      if Session.isExpired session now then
        .error (.unauthorized "Session expired")
      else
        match User.findById db session.userId with
        | none => .error (.unauthorized "User not found")
        | some user => .ok ⟨session, user, identity⟩

/-! ### Derived measures and concrete fixtures. -/

/-- Number of ExternalIdentity rows stored for a `(provider, subject)` pair. -/
def externalIdentityCount (db : Db) (provider : AuthProvider)
    (subject : String) : Nat :=
  (db.externalIdentities.filter
    (fun i => decide (i.provider = provider ∧ i.subject = subject))).length

/-- A ceremony store holding one registration record. -/
def redisFixture : RedisState := [(passkeyRegKey "tok", "reg-state-1")]

/-- A stored passkey credential with signature counter 5. -/
def credFixture : PasskeyCredential := ⟨1, 2, "cred-1", "pk-material", 5, none, 0⟩

/-- A store holding only `credFixture`. -/
def dbCredFixture : Db := ⟨[], [], [], [credFixture], 10⟩

/-- A session for the raw token `"t"`, owned by the (nonexistent) user 42. -/
def sessFixture : Session := ⟨7, 42, none, .passkey, hashToken "t", 100, 0⟩

/-- A store holding only `sessFixture` (its owning user is absent). -/
def dbSessFixture : Db := ⟨[], [], [sessFixture], [], 8⟩

/-- The empty store. -/
def dbEmptyFixture : Db := ⟨[], [], [], [], 0⟩

/-- The user a fresh resolve of email `"a@x.com"` creates on the empty
store. -/
def userFixtureA : User := ⟨0, "a@x.com", "a@x.com", none, 0, 0⟩

/-- The identity row that resolve creates alongside `userFixtureA`. -/
def eiFixtureA : ExternalIdentity := ⟨1, 0, .passkey, "sub-1", some "a@x.com", 0⟩

/-- The store after resolving `(passkey, "sub-1", "a@x.com")` on the empty
store. -/
def dbAfterResolveA : Db := ⟨[userFixtureA], [eiFixtureA], [], [], 2⟩

/-- An all-zero random source for token generation. -/
def zeroRng : Nat → Nat := fun _ => 0

end Reqstly

namespace Reqstly

set_option maxRecDepth 1000000

/-! ## Claims -/

/-- C1.  The sequential half of the claim holds: on a store holding the
ceremony record, the first consume returns the value and deletes the record,
and a second consume of the same key fails with an `Unauthorized` error.  But
read-then-delete is NOT one atomic step: the source issues `GET` and `DEL` as
two separate Redis commands, so under the interleaving GET(A), GET(B),
DEL(A), DEL(B) both racing callers receive the stored value, contradicting
"no second reader can observe the value". -/
theorem consume_get_del_race_two_readers :
    consumeSessionPasskeyRegUid redisFixture "tok" = (.ok "reg-state-1", []) ∧
    consumeSessionPasskeyRegUid
      (consumeSessionPasskeyRegUid redisFixture "tok").2 "tok" =
      (.error (.unauthorized "Invalid or expired state"), []) ∧
    racedConsume redisFixture "tok" = (.ok "reg-state-1", .ok "reg-state-1", []) :=
  ⟨rfl, rfl, rfl⟩

/-- C6.  `require_provider` succeeds exactly when the session's provider
equals the requested one, and fails with a `Forbidden` error exactly when
they differ. -/
theorem require_provider_forbidden_iff :
    ∀ (ctx : AuthContext) (provider : AuthProvider),
    (ctx.requireProvider provider = .ok () ↔ ctx.session.provider = provider) ∧
    ((∃ msg, ctx.requireProvider provider = .error (.forbidden msg)) ↔
      ctx.session.provider ≠ provider) := by
  intro ctx provider
  unfold AuthContext.requireProvider
  by_cases h : ctx.session.provider = provider <;> simp [h]

/-- C9 counterexample.  The stored signature counter is not strictly
monotonic: on a credential whose stored counter is 5, `update_counter` with
the smaller value 3 succeeds and stores 3 — nothing is rejected. -/
theorem update_counter_decrease_accepted :
    (PasskeyCredential.findByCredentialId dbCredFixture "cred-1").map
      (fun c => c.counter) = some 5 ∧
    (PasskeyCredential.updateCounter dbCredFixture "cred-1" 3).1 = .ok () ∧
    (PasskeyCredential.findByCredentialId
      (PasskeyCredential.updateCounter dbCredFixture "cred-1" 3).2 "cred-1").map
      (fun c => c.counter) = some 3 ∧
    ¬ ((3 : Int) > 5) :=
  ⟨rfl, rfl, rfl, by decide⟩

/-- Helper: mapping the counter update over a credential list sends the first
match of a credential-id search to the updated record. -/
theorem find_map_update_counter (l : List PasskeyCredential) (cid : String)
    (n : Nat) (c : PasskeyCredential)
    (hfind : l.find? (fun c => decide (c.credentialId = cid)) = some c) :
    (l.map (fun c => if c.credentialId = cid
        then { c with counter := u32AsI32 n } else c)).find?
      (fun c => decide (c.credentialId = cid)) =
      some { c with counter := u32AsI32 n } := by
  induction l with
  | nil => simp at hfind
  | cons hd tl ih =>
    by_cases hhd : hd.credentialId = cid
    · rw [List.find?_cons_of_pos _ (by simp [hhd])] at hfind
      injection hfind with h
      subst h
      rw [List.map_cons, if_pos hhd, List.find?_cons_of_pos _ (by simp [hhd])]
    · rw [List.find?_cons_of_neg _ (by simp [hhd])] at hfind
      rw [List.map_cons, if_neg hhd, List.find?_cons_of_neg _ (by simp [hhd])]
      exact ih hfind

/-- C9 amended.  `update_counter` performs no monotonicity check: it
unconditionally stores the given value (cast `u32` to `i32`) on the matching
credential — even when the new value is equal to or smaller than the stored
one — succeeds, and leaves credentials with other credential ids unchanged. -/
theorem update_counter_unconditional :
    ∀ (db : Db) (cid : String) (n : Nat) (c : PasskeyCredential),
    PasskeyCredential.findByCredentialId db cid = some c →
    (PasskeyCredential.updateCounter db cid n).1 = .ok () ∧
    PasskeyCredential.findByCredentialId
      (PasskeyCredential.updateCounter db cid n).2 cid =
      some { c with counter := u32AsI32 n } ∧
    (∀ c2 ∈ db.passkeys, c2.credentialId ≠ cid →
      c2 ∈ (PasskeyCredential.updateCounter db cid n).2.passkeys) := by
  intro db cid n c hfind
  unfold PasskeyCredential.findByCredentialId at hfind ⊢
  unfold PasskeyCredential.updateCounter
  refine ⟨rfl, ?_, ?_⟩
  · exact find_map_update_counter db.passkeys cid n c hfind
  · intro c2 hmem hne
    exact List.mem_map.2 ⟨c2, hmem, by simp [hne]⟩

/-- C9 amended witness: on the concrete fixture, the decreasing update is
applied and the credential now stores counter 3. -/
theorem update_counter_unconditional_witness :
    PasskeyCredential.findByCredentialId dbCredFixture "cred-1" = some credFixture ∧
    PasskeyCredential.findByCredentialId
      (PasskeyCredential.updateCounter dbCredFixture "cred-1" 3).2 "cred-1" =
      some { credFixture with counter := u32AsI32 3 } :=
  ⟨by decide,
   (update_counter_unconditional dbCredFixture "cred-1" 3 credFixture (by decide)).2.1⟩

/-- C10.  The string-to-provider conversion is partial: it produces a value
exactly when the (ASCII-)lowercased input is `"azure_ad"`, `"passkey"` or
`"password"`, and on every other input the source's `From<String>` impl
panics (modelled as `none`). -/
theorem auth_provider_from_string_partial :
    ∀ s : String,
    authProviderFromString s = none ↔
      asciiLowercase s ∉ (["azure_ad", "passkey", "password"] : List String) := by
  intro s
  unfold authProviderFromString
  split <;> simp_all

/-- Helper: a successful `find_valid` result is a stored session matching the
token's digest and strictly unexpired. -/
theorem findValid_some_sound (db : Db) (token : String) (now : Int)
    (session : Session) (identity : Option ExternalIdentity)
    (h : Session.findValid db token now = some (session, identity)) :
    session ∈ db.sessions ∧ session.tokenHash = hashToken token ∧
      now < session.expiresAt := by
  unfold Session.findValid at h
  cases hf : db.sessions.find?
      (fun s => decide (s.tokenHash = hashToken token ∧ now < s.expiresAt)) with
  | none => rw [hf] at h; simp at h
  | some s0 =>
    rw [hf] at h
    have hp := List.find?_some hf
    have hmem := List.mem_of_find?_eq_some hf
    simp only [decide_eq_true_eq] at hp
    simp only [Option.some.injEq, Prod.mk.injEq] at h
    obtain ⟨h1, -⟩ := h
    subst h1
    exact ⟨hmem, hp.1, hp.2⟩

/-- Helper: `find_valid` returns nothing exactly when every stored session
with the token's digest has `expires_at <= now`. -/
theorem findValid_none_iff (db : Db) (token : String) (now : Int) :
    Session.findValid db token now = none ↔
      ∀ s ∈ db.sessions, s.tokenHash = hashToken token → s.expiresAt ≤ now := by
  unfold Session.findValid
  cases hf : db.sessions.find?
      (fun s => decide (s.tokenHash = hashToken token ∧ now < s.expiresAt)) with
  | none =>
    rw [List.find?_eq_none] at hf
    simp only [true_iff]
    intro s hs hhash
    have hns := hf s hs
    simp only [decide_eq_true_eq] at hns
    have hnl : ¬ (now < s.expiresAt) := fun hl => hns ⟨hhash, hl⟩
    omega
  | some s0 =>
    have hp := List.find?_some hf
    have hmem := List.mem_of_find?_eq_some hf
    simp only [decide_eq_true_eq] at hp
    refine ⟨fun h => absurd h (by simp),
            fun hall => absurd (hall s0 hmem hp.1) (by omega)⟩

/-- C2.  `find_valid` returns nothing exactly when no stored session carries
the token's digest or every session that does has `expires_at <= now`
(expired and nonexistent sessions yield the same `none`), and any returned
session matches the digest and satisfies `now < expires_at` — regardless of
whether `cleanup_expired` ever ran. -/
theorem find_valid_characterization :
    ∀ (db : Db) (token : String) (now : Int),
    (Session.findValid db token now = none ↔
      ∀ s ∈ db.sessions, s.tokenHash = hashToken token → s.expiresAt ≤ now) ∧
    (∀ session identity,
      Session.findValid db token now = some (session, identity) →
      session ∈ db.sessions ∧ session.tokenHash = hashToken token ∧
        now < session.expiresAt) := by
  intro db token now
  exact ⟨findValid_none_iff db token now,
         fun session identity h => findValid_some_sound db token now session identity h⟩

/-- C2 witness: on a store holding one unexpired session for the raw token
`"t"`, `find_valid` returns it and the returned session is unexpired. -/
theorem find_valid_characterization_witness :
    Session.findValid dbSessFixture "t" 0 = some (sessFixture, none) ∧
    (sessFixture ∈ dbSessFixture.sessions ∧
      sessFixture.tokenHash = hashToken "t" ∧ (0 : Int) < sessFixture.expiresAt) :=
  ⟨by decide,
   (find_valid_characterization dbSessFixture "t" 0).2 sessFixture none (by decide)⟩

/-- C7.  When the presented token resolves to a valid session whose
`user_id` no longer matches any user, the guard fails with the same
`Unauthorized` kind as a missing or invalid token — it neither crashes nor
returns an `Internal`-style error. -/
theorem guard_vanished_user_unauthenticated :
    ∀ (db : Db) (token : String) (now : Int) (session : Session)
      (identity : Option ExternalIdentity),
    Session.findValid db token now = some (session, identity) →
    User.findById db session.userId = none →
    AuthContext.fromRequestParts db (some token) now =
      .error (.unauthorized "User not found") ∧
    (AppError.unauthorized "User not found").isUnauthorized = true ∧
    AuthContext.fromRequestParts db none now =
      .error (.unauthorized "Missing session cookie") ∧
    (AppError.unauthorized "Missing session cookie").isUnauthorized = true := by
  intro db token now session identity hfv huser
  obtain ⟨hmem, hhash, hlt⟩ := findValid_some_sound db token now session identity hfv
  refine ⟨?_, rfl, rfl, rfl⟩
  unfold AuthContext.fromRequestParts sessionTokenFromRequestParts
  dsimp only
  rw [hfv]
  have hnot : ¬ (session.expiresAt < now) := by omega
  simp [Session.isExpired, hnot, huser]

/-- C7 witness: the fixture session's owner (user 42) does not exist, and the
guard reports the same `Unauthorized` kind as a missing cookie. -/
theorem guard_vanished_user_unauthenticated_witness :
    AuthContext.fromRequestParts dbSessFixture (some "t") 0 =
      .error (.unauthorized "User not found") ∧
    AuthContext.fromRequestParts dbSessFixture none 0 =
      .error (.unauthorized "Missing session cookie") :=
  ⟨(guard_vanished_user_unauthenticated dbSessFixture "t" 0 sessFixture none
      (by decide) (by decide)).1,
   (guard_vanished_user_unauthenticated dbSessFixture "t" 0 sessFixture none
      (by decide) (by decide)).2.2.1⟩

/-- C3.  `Session::create` draws a 256-bit (32-byte) random token, stores as
`token_hash` exactly the base64url-encoded SHA-256 digest of it, sets the
persisted expiry to now + 24 hours, appends exactly the one new row, and
returns the raw token only in its result; whenever the digest differs from
the token (as at the concrete witness input), no stored field of the created
session equals the raw token. -/
theorem session_create_stores_digest :
    ∀ (db : Db) (userId : Nat) (identity : Option ExternalIdentity)
      (provider : AuthProvider) (now : Int) (rng : Nat → Nat),
    (Session.create db userId identity provider now rng).1.2 =
      generateSessionToken rng ∧
    (tokenBytes rng).length = 32 ∧
    generateSessionToken rng = base64UrlEncode (tokenBytes rng) ∧
    (Session.create db userId identity provider now rng).1.1.tokenHash =
      hashToken (generateSessionToken rng) ∧
    hashToken (generateSessionToken rng) =
      base64UrlEncode (sha256 (strBytes (generateSessionToken rng))) ∧
    (Session.create db userId identity provider now rng).1.1.expiresAt =
      now + 24 * 3600 ∧
    (Session.create db userId identity provider now rng).2.sessions =
      db.sessions ++ [(Session.create db userId identity provider now rng).1.1] ∧
    (Session.create db userId identity provider now rng).2.users = db.users ∧
    (hashToken (generateSessionToken rng) ≠ generateSessionToken rng →
      (Session.create db userId identity provider now rng).1.1.tokenHash ≠
        (Session.create db userId identity provider now rng).1.2) := by
  intro db userId identity provider now rng
  refine ⟨rfl, by simp [tokenBytes, TOKEN_SIZE], rfl, rfl, rfl, rfl, rfl, rfl, ?_⟩
  intro hne
  exact hne

/-- C3 witness: with an all-zero random source the raw token is 43 `A`
characters, and its stored SHA-256 digest differs from it, so the created
session's `token_hash` does not equal the raw token. -/
theorem session_create_stores_digest_witness :
    hashToken (generateSessionToken zeroRng) ≠ generateSessionToken zeroRng ∧
    (Session.create dbEmptyFixture 1 none .passkey 0 zeroRng).1.1.tokenHash ≠
      (Session.create dbEmptyFixture 1 none .passkey 0 zeroRng).1.2 :=
  ⟨by decide,
   (session_create_stores_digest dbEmptyFixture 1 none .passkey 0 zeroRng).2.2.2.2.2.2.2.2
     (by decide)⟩

/-- Helper: after the extend update, searching by the session's id finds
exactly the old row with only its expiry replaced. -/
theorem find_extended_eq (l : List Session) (s : Session) (t : Int)
    (hmem : s ∈ l) (hid : ∀ r ∈ l, r.id = s.id → r = s) :
    (l.map (fun r => if r.id = s.id then { r with expiresAt := t } else r)).find?
      (fun r => decide (r.id = s.id)) = some { s with expiresAt := t } := by
  induction l with
  | nil => simp at hmem
  | cons hd tl ih =>
    by_cases hhd : hd.id = s.id
    · have heq : hd = s := hid hd (List.mem_cons_self hd tl) hhd
      subst heq
      rw [List.map_cons, if_pos hhd]
      exact List.find?_cons_of_pos _ (by simp)
    · have hne : hd ≠ s := fun h => hhd (by rw [h])
      have hmem2 : s ∈ tl := by
        rcases List.mem_cons.1 hmem with h | h
        · exact absurd (by rw [h]) (Ne.symm hne)
        · exact h
      rw [List.map_cons, if_neg hhd, List.find?_cons_of_neg _ (by simp [hhd])]
      exact ih hmem2 (fun r hr => hid r (List.mem_cons_of_mem _ hr))

/-- Helper: after the extend update, searching by the session's unique token
digest with any time earlier than the new expiry finds the updated row. -/
theorem find_extended_by_hash (l : List Session) (s : Session) (t now2 : Int)
    (hmem : s ∈ l) (hid : ∀ r ∈ l, r.id = s.id → r = s)
    (hhash : ∀ r ∈ l, r.tokenHash = s.tokenHash → r = s) (hlt : now2 < t) :
    (l.map (fun r => if r.id = s.id then { r with expiresAt := t } else r)).find?
      (fun r => decide (r.tokenHash = s.tokenHash ∧ now2 < r.expiresAt)) =
      some { s with expiresAt := t } := by
  induction l with
  | nil => simp at hmem
  | cons hd tl ih =>
    by_cases hhd : hd.id = s.id
    · have heq : hd = s := hid hd (List.mem_cons_self hd tl) hhd
      subst heq
      rw [List.map_cons, if_pos hhd]
      exact List.find?_cons_of_pos _ (by simp [hlt])
    · have hne : hd ≠ s := fun h => hhd (by rw [h])
      have hneHash : ¬ (hd.tokenHash = s.tokenHash) :=
        fun h => hne (hhash hd (List.mem_cons_self hd tl) h)
      have hmem2 : s ∈ tl := by
        rcases List.mem_cons.1 hmem with h | h
        · exact absurd (by rw [h]) (Ne.symm hne)
        · exact h
      rw [List.map_cons, if_neg hhd, List.find?_cons_of_neg _ (by simp [hneHash])]
      exact ih hmem2 (fun r hr => hid r (List.mem_cons_of_mem _ hr))
        (fun r hr => hhash r (List.mem_cons_of_mem _ hr))

/-- C8.  For a stored session (with a unique id), `extend` returns the same
row with only `expires_at` replaced by now + 24 hours: `token_hash` and every
other field are unchanged, no other table or row is touched, no new token is
issued, and — when the digest is unique — the same raw token still finds the
session at any time before the new expiry. -/
theorem extend_preserves_token :
    ∀ (db : Db) (s : Session) (now : Int),
    s ∈ db.sessions →
    (∀ r ∈ db.sessions, r.id = s.id → r = s) →
    (Session.extend s db now).1 =
      .ok { s with expiresAt := now + sessionDurationSeconds } ∧
    ({ s with expiresAt := now + sessionDurationSeconds } : Session).tokenHash =
      s.tokenHash ∧
    (Session.extend s db now).2.users = db.users ∧
    (Session.extend s db now).2.externalIdentities = db.externalIdentities ∧
    (Session.extend s db now).2.passkeys = db.passkeys ∧
    (Session.extend s db now).2.sessions =
      sessionsExtended db s.id (now + sessionDurationSeconds) ∧
    (∀ r ∈ db.sessions, r.id ≠ s.id → r ∈ (Session.extend s db now).2.sessions) ∧
    (∀ tok now2, hashToken tok = s.tokenHash →
      (∀ r ∈ db.sessions, r.tokenHash = s.tokenHash → r = s) →
      now2 < now + sessionDurationSeconds →
      ∃ ei, Session.findValid (Session.extend s db now).2 tok now2 =
        some ({ s with expiresAt := now + sessionDurationSeconds }, ei)) := by
  intro db s now hmem hid
  have hfind := find_extended_eq db.sessions s (now + sessionDurationSeconds) hmem hid
  have hsess : (Session.extend s db now).2.sessions =
      db.sessions.map (fun r => if r.id = s.id
        then { r with expiresAt := now + sessionDurationSeconds } else r) := by
    unfold Session.extend sessionsExtended
    rw [hfind]
  refine ⟨?_, rfl, ?_, ?_, ?_, ?_, ?_, ?_⟩
  · unfold Session.extend sessionsExtended
    rw [hfind]
  · unfold Session.extend sessionsExtended
    rw [hfind]
  · unfold Session.extend sessionsExtended
    rw [hfind]
  · unfold Session.extend sessionsExtended
    rw [hfind]
  · unfold Session.extend sessionsExtended
    rw [hfind]
  · intro r hr hne
    rw [hsess]
    exact List.mem_map.2 ⟨r, hr, by simp [hne]⟩
  · intro tok now2 htok huniqHash hlt
    have hfind2 := find_extended_by_hash db.sessions s
      (now + sessionDurationSeconds) now2 hmem hid huniqHash hlt
    refine ⟨(match s.externalIdentityId with
             | some extId => ExternalIdentity.findById (Session.extend s db now).2 extId
             | none => none), ?_⟩
    unfold Session.findValid
    rw [hsess, htok, hfind2]

/-- C8 witness: extending the fixture session pushes its expiry to 24 hours
past the given time, keeps its token hash, and the raw token `"t"` still
finds it. -/
theorem extend_preserves_token_witness :
    (Session.extend sessFixture dbSessFixture 0).1 =
      .ok { sessFixture with expiresAt := 0 + sessionDurationSeconds } ∧
    (∃ ei, Session.findValid (Session.extend sessFixture dbSessFixture 0).2 "t" 50 =
      some ({ sessFixture with expiresAt := 0 + sessionDurationSeconds }, ei)) :=
  ⟨(extend_preserves_token dbSessFixture sessFixture 0 (by decide)
      (by decide)).1,
   (extend_preserves_token dbSessFixture sessFixture 0 (by decide)
      (by decide)).2.2.2.2.2.2.2 "t" 50 (by decide) (by decide) (by decide)⟩

/-- Helper: when no identity row exists for `(provider, subject)` and an
email is supplied, `resolve` succeeds, appends exactly one identity row
pointing at the returned user, and afterwards that user is the first match
for the email. -/
theorem resolve_fresh (db : Db) (provider : AuthProvider) (subject e : String)
    (name : Option String) (now : Int)
    (hfind : ExternalIdentity.findByProviderSubject db provider subject = none) :
    ∃ u1 ei1 db1,
      resolveUserFromExternalIdentity db provider subject (some e) name now =
        (.ok u1, db1) ∧
      db1.externalIdentities = db.externalIdentities ++ [ei1] ∧
      ei1.provider = provider ∧ ei1.subject = subject ∧ ei1.userId = u1.id ∧
      User.findByEmail db1 e = some u1 ∧
      (∀ u0, User.findByEmail db e = some u0 → u1 = u0) := by
  have hallP : ∀ x ∈ db.externalIdentities,
      ¬ ((fun i => decide (i.provider = provider ∧ i.subject = subject)) x = true) := by
    unfold ExternalIdentity.findByProviderSubject at hfind
    exact List.find?_eq_none.1 hfind
  have hany : db.externalIdentities.any
      (fun i => decide (i.provider = provider ∧ i.subject = subject)) = false :=
    List.any_eq_false.2 hallP
  cases hemail : User.findByEmail db e with
  | some u =>
    refine ⟨u, ⟨db.nextId, u.id, provider, subject, some e, now⟩,
      { db with
          externalIdentities := db.externalIdentities ++
            [⟨db.nextId, u.id, provider, subject, some e, now⟩],
          nextId := db.nextId + 1 }, ?_, rfl, rfl, rfl, rfl, ?_, ?_⟩
    · simp only [resolveUserFromExternalIdentity, hfind, hemail,
        ExternalIdentity.create, hany]
      simp
    · unfold User.findByEmail at hemail ⊢
      exact hemail
    · intro u0 h0
      exact Option.some.inj h0
  | none =>
    have hanyU : db.users.any (fun u => decide (u.email = e)) = false := by
      unfold User.findByEmail at hemail
      exact List.any_eq_false.2 (List.find?_eq_none.1 hemail)
    refine ⟨⟨db.nextId, e, name.getD e, none, now, now⟩,
      ⟨db.nextId + 1, db.nextId, provider, subject, some e, now⟩,
      { db with
          users := db.users ++ [⟨db.nextId, e, name.getD e, none, now, now⟩],
          externalIdentities := db.externalIdentities ++
            [⟨db.nextId + 1, db.nextId, provider, subject, some e, now⟩],
          nextId := db.nextId + 2 }, ?_, rfl, rfl, rfl, rfl, ?_, ?_⟩
    · have hnex : ¬ ∃ x ∈ db.externalIdentities,
          x.provider = provider ∧ x.subject = subject := by
        rintro ⟨x, hx, h1, h2⟩
        exact hallP x hx (by simp [h1, h2])
      simp only [resolveUserFromExternalIdentity, hfind, hemail, User.create,
        ExternalIdentity.create, hany, hanyU]
      simp [hnex]
    · unfold User.findByEmail at hemail ⊢
      simp only [List.find?_append, hemail]
      simp
    · intro u0 h0
      exact Option.noConfusion h0

/-- C4.  With an email supplied, a successful `resolve` is idempotent: a
second call with identical arguments succeeds with the same `User.id`,
leaves the store unchanged (no second ExternalIdentity row), afterwards
exactly one ExternalIdentity row exists for `(provider, subject)` and every
such row points at the returned user, and the second call takes the
existing-identity path (the `(provider, subject)` lookup hits). -/
theorem resolve_idempotent :
    ∀ (db : Db) (provider : AuthProvider) (subject e : String)
      (name : Option String) (now now2 : Int) (u1 : User) (db1 : Db),
    externalIdentityCount db provider subject ≤ 1 →
    resolveUserFromExternalIdentity db provider subject (some e) name now =
      (.ok u1, db1) →
    (∃ u2, resolveUserFromExternalIdentity db1 provider subject (some e) name now2 =
        (.ok u2, db1) ∧ u2.id = u1.id) ∧
    externalIdentityCount db1 provider subject = 1 ∧
    (∀ ei ∈ db1.externalIdentities, ei.provider = provider → ei.subject = subject →
      ei.userId = u1.id) ∧
    (∃ ei, ExternalIdentity.findByProviderSubject db1 provider subject = some ei ∧
      ei.userId = u1.id) := by
  intro db provider subject e name now now2 u1 db1 hcount hres
  cases hfind : ExternalIdentity.findByProviderSubject db provider subject with
  | some ei0 =>
    have hfindL := hfind
    unfold ExternalIdentity.findByProviderSubject at hfindL
    have hp := List.find?_some hfindL
    have hmem0 := List.mem_of_find?_eq_some hfindL
    simp only [decide_eq_true_eq] at hp
    unfold resolveUserFromExternalIdentity at hres
    rw [hfind] at hres
    dsimp only at hres
    cases huser : User.findById db ei0.userId with
    | none => rw [huser] at hres; simp at hres
    | some u =>
      rw [huser] at hres
      dsimp only at hres
      simp only [Prod.mk.injEq, Except.ok.injEq] at hres
      obtain ⟨hu, hdb⟩ := hres
      subst hu
      subst hdb
      have huid : u.id = ei0.userId := by
        have hL := huser
        unfold User.findById at hL
        have hdec := List.find?_some hL
        simpa using hdec
      have hone : ei0 ∈ db.externalIdentities.filter
          (fun i => decide (i.provider = provider ∧ i.subject = subject)) :=
        List.mem_filter.2 ⟨hmem0, by simp [hp.1, hp.2]⟩
      have hlen := List.length_pos_of_mem hone
      have hcnt : externalIdentityCount db provider subject = 1 := by
        unfold externalIdentityCount at hcount ⊢
        omega
      obtain ⟨x, hx⟩ := List.length_eq_one.1
        (by unfold externalIdentityCount at hcnt; exact hcnt)
      refine ⟨⟨u, ?_, rfl⟩, hcnt, ?_, ⟨ei0, hfind, huid.symm⟩⟩
      · unfold resolveUserFromExternalIdentity
        rw [hfind]
        dsimp only
        rw [huser]
      · intro ei hmemei hprov hsub
        have hei : ei ∈ db.externalIdentities.filter
            (fun i => decide (i.provider = provider ∧ i.subject = subject)) :=
          List.mem_filter.2 ⟨hmemei, by simp [hprov, hsub]⟩
        rw [hx] at hei hone
        simp only [List.mem_singleton] at hei hone
        rw [hei, ← hone, ← huid]
  | none =>
    obtain ⟨u1', ei1, db1', heq, heis, hprov1, hsub1, huid1, hbyemail, -⟩ :=
      resolve_fresh db provider subject e name now hfind
    rw [hres] at heq
    simp only [Prod.mk.injEq, Except.ok.injEq] at heq
    obtain ⟨hu, hdb⟩ := heq
    subst hu
    subst hdb
    have hallP : ∀ x ∈ db.externalIdentities,
        ¬ ((fun i => decide (i.provider = provider ∧ i.subject = subject)) x = true) := by
      have h := hfind
      unfold ExternalIdentity.findByProviderSubject at h
      exact List.find?_eq_none.1 h
    have hfind1 : ExternalIdentity.findByProviderSubject db1 provider subject =
        some ei1 := by
      unfold ExternalIdentity.findByProviderSubject
      have h := hfind
      unfold ExternalIdentity.findByProviderSubject at h
      rw [heis, List.find?_append, h]
      simp [hprov1, hsub1]
    have humem : u1 ∈ db1.users := by
      unfold User.findByEmail at hbyemail
      exact List.mem_of_find?_eq_some hbyemail
    have hfindid : ∃ u', User.findById db1 ei1.userId = some u' ∧ u'.id = u1.id := by
      unfold User.findById
      cases hu' : db1.users.find? (fun u => decide (u.id = ei1.userId)) with
      | none =>
        exact absurd (by simp [huid1]) (List.find?_eq_none.1 hu' u1 humem)
      | some u' =>
        have hdec := List.find?_some hu'
        simp only [decide_eq_true_eq] at hdec
        exact ⟨u', rfl, by rw [hdec, huid1]⟩
    obtain ⟨u', hu'eq, hu'id⟩ := hfindid
    refine ⟨⟨u', ?_, hu'id⟩, ?_, ?_, ⟨ei1, hfind1, huid1⟩⟩
    · unfold resolveUserFromExternalIdentity
      rw [hfind1]
      dsimp only
      rw [hu'eq]
    · unfold externalIdentityCount
      rw [heis, List.filter_append, List.filter_eq_nil_iff.2 hallP]
      simp [hprov1, hsub1]
    · intro ei hmemei hprov hsub
      rw [heis] at hmemei
      rcases List.mem_append.1 hmemei with h | h
      · exact absurd (by simp [hprov, hsub]) (hallP ei h)
      · simp only [List.mem_singleton] at h
        rw [h, huid1]

/-- C4 witness: resolving `(passkey, "sub-1", "a@x.com")` twice from the
empty store: the second call returns the same user id and leaves the store
unchanged, and exactly one identity row exists for the pair. -/
theorem resolve_idempotent_witness :
    (∃ u2, resolveUserFromExternalIdentity dbAfterResolveA .passkey "sub-1"
        (some "a@x.com") none 5 = (.ok u2, dbAfterResolveA) ∧
      u2.id = userFixtureA.id) ∧
    externalIdentityCount dbAfterResolveA .passkey "sub-1" = 1 :=
  ⟨(resolve_idempotent dbEmptyFixture .passkey "sub-1" "a@x.com" none 0 5
      userFixtureA dbAfterResolveA (by decide) (by rfl)).1,
   (resolve_idempotent dbEmptyFixture .passkey "sub-1" "a@x.com" none 0 5
      userFixtureA dbAfterResolveA (by decide) (by rfl)).2.1⟩

/-- C5.  Two resolves with distinct providers and subjects but the same
email, neither pair known beforehand: the second call links a new identity to
the user owning the email instead of creating a second user, so both calls
return the same `User.id`. -/
theorem resolve_links_same_email :
    ∀ (db : Db) (p1 p2 : AuthProvider) (sub1 sub2 e : String)
      (n1 n2 : Option String) (now now2 : Int) (u1 : User) (db1 : Db),
    p1 ≠ p2 → sub1 ≠ sub2 →
    ExternalIdentity.findByProviderSubject db p1 sub1 = none →
    ExternalIdentity.findByProviderSubject db p2 sub2 = none →
    resolveUserFromExternalIdentity db p1 sub1 (some e) n1 now = (.ok u1, db1) →
    ∃ u2 db2,
      resolveUserFromExternalIdentity db1 p2 sub2 (some e) n2 now2 =
        (.ok u2, db2) ∧ u2.id = u1.id := by
  intro db p1 p2 sub1 sub2 e n1 n2 now now2 u1 db1 hp12 _hsub12 hfind1 hfind2 hres
  obtain ⟨u1', ei1, db1', heq, heis, hprov1, hsub1, huid1, hbyemail, -⟩ :=
    resolve_fresh db p1 sub1 e n1 now hfind1
  rw [hres] at heq
  simp only [Prod.mk.injEq, Except.ok.injEq] at heq
  obtain ⟨hu, hdb⟩ := heq
  subst hu
  subst hdb
  have hprovne : ei1.provider ≠ p2 := by rw [hprov1]; exact hp12
  have hfind2' : ExternalIdentity.findByProviderSubject db1 p2 sub2 = none := by
    unfold ExternalIdentity.findByProviderSubject at hfind2 ⊢
    rw [heis, List.find?_append, hfind2]
    simp [hprovne]
  obtain ⟨u2, ei2, db2, heq2, -, -, -, -, -, hsame⟩ :=
    resolve_fresh db1 p2 sub2 e n2 now2 hfind2'
  have hu2 : u2 = u1 := hsame u1 hbyemail
  exact ⟨u2, db2, heq2, by rw [hu2]⟩

/-- C5 witness: `(passkey, "sub-1", "a@x.com")` then
`(password, "sub-2", "a@x.com")` from the empty store yield the same user
id. -/
theorem resolve_links_same_email_witness :
    ∃ u2 db2,
      resolveUserFromExternalIdentity dbAfterResolveA .password "sub-2"
        (some "a@x.com") none 7 = (.ok u2, db2) ∧ u2.id = userFixtureA.id :=
  resolve_links_same_email dbEmptyFixture .passkey .password "sub-1" "sub-2"
    "a@x.com" none none 0 7 userFixtureA dbAfterResolveA (by decide) (by decide)
    (by rfl) (by rfl) (by rfl)

end Reqstly
